import Mathlib

/-!
Verification of `scripts/update_bill_status.py` (ILGA bill-status tracker).

The Python script fetches per-bill XML status documents, extracts fields,
classifies a legislative "stage" from free-text action descriptions, and
reconciles the result with the previously persisted record.  This file is a
shallow embedding of that script:

* Python dicts holding JSON-like values are modelled as association lists
  `Rec = List (String × JVal)` with first-binding-wins lookup (`dget`);
  `{**a, **b}` is `dmerge a b` (same lookup semantics: keys of `b` win).
* A parsed XML status document is modelled by `StatusDoc`, whose fields mirror
  exactly the elements the extractor functions read (`root.find(...)`
  results; element text is `Option String`, `none` for a missing text node).
* Fallible Python code (uncaught `ValueError` from `parse_bill_number`,
  `KeyError` on a missing `billNumber` key) is modelled with
  `Except String`; the external fetch + `ET.fromstring` pair is an oracle
  `String → Option (Option StatusDoc)` (`none` = fetch failure,
  `some none` = unparsable bytes, `some (some d)` = parsed document).
* Python truthiness (`x or y`, `if child.text:`) is modelled by `truthy`.

Function names follow the source where Lean permits.
-/

/-- JSON-like values occurring in the script's record dicts.  `null` models
Python `None`; `arr` models the integer lists (`"year": [2025, 2026]`)
appearing in static bill records. -/
inductive JVal where
  | s (v : String)
  | b (v : Bool)
  | i (v : Int)
  | arr (v : List Int)
  | null
  deriving DecidableEq, Repr

/-- A Python dict with JSON-like values, as an association list.
Lookup takes the first binding; dicts built by the embedding never contain
duplicate keys.  Insertion order is not load-bearing for any claim. -/
abbrev Rec : Type := List (String × JVal)

/-- Dict lookup: `d.get(k)` / `d[k]` (first binding wins). -/
def dget : Rec → String → Option JVal
  | [], _ => none
  | kv :: rest, k => if kv.1 = k then some kv.2 else dget rest k

/-- Dict lookup with default: Python `d.get(k, default)`. -/
def dgetD (r : Rec) (k : String) (d : JVal) : JVal :=
  (dget r k).getD d

/-- Python `{**a, **b}`: keys of `b` win, all other keys of `a` are kept
(modelled up to insertion order, which no claim depends on). -/
def dmerge (a b : Rec) : Rec :=
  a.filter (fun kv => (dget b kv.1).isNone) ++ b

/-- Python truthiness for the values of `JVal`. -/
def truthy : JVal → Bool
  | JVal.s v => v != ""
  | JVal.b v => v
  | JVal.i v => v != 0
  | JVal.arr v => !v.isEmpty
  | JVal.null => false

/-- Substring search on `List Char`: does `s` contain `p`?  (Python `p in s`.) -/
def containsSubAux (p : List Char) : List Char → Bool
  | [] => p.isEmpty
  | c :: t => p.isPrefixOf (c :: t) || containsSubAux p t

/-- Python `pat in s` (substring containment). -/
def containsSub (s pat : String) : Bool :=
  containsSubAux pat.data s.data

/-- Python `str.lower()` (ASCII case mapping), defined structurally so that
the kernel can evaluate it. -/
def lowerStr (s : String) : String := String.mk (s.data.map Char.toLower)

/-- Python `str.strip()`: drop leading and trailing whitespace, defined
structurally so that the kernel can evaluate it. -/
def trimStr (s : String) : String :=
  String.mk ((((s.data.dropWhile (fun c => c.isWhitespace)).reverse).dropWhile
    (fun c => c.isWhitespace)).reverse)

/-- Python `s.startswith(pre)`, defined structurally. -/
def startsWithStr (s pre : String) : Bool := pre.data.isPrefixOf s.data

/-- `parse_bill_number`: `re.match(r'^([A-Z]+)(\d+)$', bill_number)`;
raises `ValueError` (modelled as `Except.error`) when the pattern fails.
Since `[A-Z]` and `\d` are disjoint, the regex matches exactly when the
string is a nonempty run of uppercase letters followed by a nonempty run
of digits. -/
def parse_bill_number (billNumber : String) : Except String (String × String) :=
  let l := billNumber.data
  let letters := l.takeWhile (fun c => c.isUpper)
  let rest := l.drop letters.length
  if letters ≠ [] ∧ rest ≠ [] ∧ rest.all (fun c => c.isDigit) then
    Except.ok (String.mk letters, String.mk rest)
  else
    Except.error ("Cannot parse bill number: " ++ billNumber)

def ILGA_FTP_BASE : String :=
  "https://www.ilga.gov/ftp/legislation/104/BillStatus/XML/10400"

/-- Python `str.zfill(4)` on a digit string. -/
def zfill4 (s : String) : String :=
  if s.length ≥ 4 then s else String.mk (List.replicate (4 - s.length) '0') ++ s

/-- `get_xml_url`: builds the FTP URL; propagates `parse_bill_number` failure. -/
def get_xml_url (billNumber : String) : Except String String :=
  match parse_bill_number billNumber with
  | Except.error e => Except.error e
  | Except.ok dn => Except.ok (ILGA_FTP_BASE ++ dn.1 ++ zfill4 dn.2 ++ ".xml")

/-- `map_stage`: chained substring checks over the lower-cased last action,
then over the joined action history, then the document-type tie-break. -/
def map_stage (lastAction : String) (actionHistory : List String) (docType : String) : String :=
  let la := lowerStr lastAction
  if containsSub la "approved by governor" || containsSub la "public act" then
    "Signed into Law"
  else if containsSub la "sent to the governor" || containsSub la "to the governor" then
    "Awaiting Governor Signature"
  else if containsSub la "passed both" || containsSub la "enrolled" then
    "Enrolled"
  else if containsSub la "passed senate" then
    "Passed Senate"
  else if containsSub la "passed house" then
    "Passed House"
  else if (["vetoed", "failed", "did not pass", "tabled", "withdrawn"].any
      (fun k => containsSub la k)) then
    "Failed"
  else
    let history := String.intercalate " " actionHistory
    if containsSub history "passed house" || containsSub history "arrive in senate" then
      "In Senate Committee"
    else if containsSub history "passed senate" || containsSub history "arrive in house" then
      "In House Committee"
    else if docType = "HB" then "In House Committee" else "In Senate Committee"

/-- The fixed stage enumeration (code spellings of the spec labels
`Signed`, `AwaitingSignature`, `Enrolled`, `PassedSenate`, `PassedHouse`,
`Failed`, `InSenateCommittee`, `InHouseCommittee`, `Unknown`). -/
def stageEnum : List String :=
  ["Signed into Law", "Awaiting Governor Signature", "Enrolled", "Passed Senate",
   "Passed House", "Failed", "In Senate Committee", "In House Committee", "Unknown"]

/-- The `<lastaction>` element: its `<action>` and `<statusdate>` children
(each possibly absent, each with possibly absent text). -/
structure LastActionEl where
  action : Option (Option String)
  statusdate : Option (Option String)
  deriving DecidableEq, Repr

/-- The `<nextaction>` element: its `<statusdate>` and `<action>` children. -/
structure NextActionEl where
  statusdate : Option (Option String)
  action : Option (Option String)
  deriving DecidableEq, Repr

/-- A parsed XML status document, with exactly the elements the extractor
functions read.  `actions` and `synopsis` are child-element lists of
`(tag, text)` pairs; `sponsor` is `<sponsor>` (present?) containing
`<sponsors>` (present?) with its text. -/
structure StatusDoc where
  lastaction : Option LastActionEl
  sponsor : Option (Option (Option String))
  actions : Option (List (String × Option String))
  nextaction : Option NextActionEl
  committeehearing : Option (Option String)
  synopsis : Option (List (String × Option String))
  deriving DecidableEq, Repr

/-- `get_last_action_fields`: lastAction text and date, `""` when absent. -/
def get_last_action_fields (root : StatusDoc) : String × String :=
  match root.lastaction with
  | none => ("", "")
  | some la =>
    ((match la.action with
      | some t => trimStr (t.getD "")
      | none => ""),
     (match la.statusdate with
      | some t => trimStr (t.getD "")
      | none => ""))

/-- Does `re.split(r'-|,|\s+and\s+', ...)`'s separator alternation match at
the head of this character list (the `\s+and\s+` branch)? -/
def matchesAndSep (l : List Char) : Bool :=
  let ws := l.takeWhile (fun c => c.isWhitespace)
  if ws.isEmpty then false
  else
    let r := l.drop ws.length
    if ("and".data).isPrefixOf r then
      match r.drop 3 with
      | c :: _ => c.isWhitespace
      | [] => false
    else false

/-- Characters before the leftmost separator match (the `[0]` segment of the
`re.split` in `get_primary_sponsor`). -/
def firstSeg : List Char → List Char
  | [] => []
  | c :: t =>
    if c = '-' ∨ c = ',' ∨ matchesAndSep (c :: t) then []
    else c :: firstSeg t

/-- `get_primary_sponsor`: first token of the sponsors text, split on
`-`, `,` or a whitespace-delimited `and`. -/
def get_primary_sponsor (root : StatusDoc) : String :=
  match root.sponsor with
  | none => ""
  | some sponsorsEl =>
    match sponsorsEl with
    | none => ""
    | some txt =>
      match txt with
      | none => ""
      | some t =>
        if t = "" then ""
        else trimStr (String.mk (firstSeg (trimStr t).data))

/-- `get_action_texts`: texts of `<action>` children of `<actions>`
(tag compared lower-cased), nonempty only, stripped and lower-cased. -/
def get_action_texts (root : StatusDoc) : List String :=
  match root.actions with
  | none => []
  | some children =>
    children.filterMap fun kv =>
      match kv.2 with
      | some t => if lowerStr kv.1 = "action" ∧ t ≠ "" then some (lowerStr (trimStr t)) else none
      | none => none

/-- `MONTH_MAP`. -/
def MONTH_MAP : List (String × String) :=
  [("Jan", "1"), ("Feb", "2"), ("Mar", "3"), ("Apr", "4"), ("May", "5"), ("Jun", "6"),
   ("Jul", "7"), ("Aug", "8"), ("Sep", "9"), ("Oct", "10"), ("Nov", "11"), ("Dec", "12")]

/-- Python regex `\w` (word character), ASCII range as used by the hearing dates. -/
def isWordChar (c : Char) : Bool := c.isAlphanum || c = '_'

/-- Match `\s+(\d{4})\b` at the head of `r`; returns the year digits. -/
def matchYearTail (r : List Char) : Option String :=
  let ws := r.takeWhile (fun c => c.isWhitespace)
  if ws.isEmpty then none
  else
    let r2 := r.drop ws.length
    let y := r2.take 4
    let boundary : Bool :=
      match r2.drop 4 with
      | [] => true
      | c :: _ => !isWordChar c
    if (y.length == 4) && y.all (fun c => c.isDigit) && boundary then
      some (String.mk y)
    else none

/-- Match `(\d{1,2})\s+(\d{4})\b` at the head of `r` (greedy day with
backtracking); returns (day digits, year digits). -/
def matchDay (r : List Char) : Option (String × String) :=
  match r with
  | [] => none
  | c1 :: rest =>
    if c1.isDigit then
      (match rest with
       | c2 :: rest2 =>
         if c2.isDigit then
           (matchYearTail rest2).map (fun y => (String.mk [c1, c2], y))
         else none
       | [] => none).orElse
        (fun _ => (matchYearTail rest).map (fun y => (String.mk [c1], y)))
    else none

/-- Match the month alternation plus `\s+(\d{1,2})\s+(\d{4})\b` at the head
of `l`; returns (month number via `MONTH_MAP`, day, year). -/
def matchHearingAt (l : List Char) : Option (String × String × String) :=
  MONTH_MAP.findSome? fun mp =>
    if (mp.1.data).isPrefixOf l then
      let r1 := l.drop 3
      let ws := r1.takeWhile (fun c => c.isWhitespace)
      if ws.isEmpty then none
      else (matchDay (r1.drop ws.length)).map (fun dy => (mp.2, dy.1, dy.2))
    else none

/-- `re.search` scan for the committee-hearing date pattern: leftmost
position with a word boundary where the pattern matches.  Returns
(text before the match, month number, day, year). -/
def searchHearingAux : List Char → Option Char → List Char → Option (String × String × String × String)
  | _, _, [] => none
  | acc, prev, c :: t =>
    let boundaryOk := match prev with
                      | none => true
                      | some p => !isWordChar p
    match (if boundaryOk then matchHearingAt (c :: t) else none) with
    | some mdy => some (String.mk acc.reverse, mdy.1, mdy.2.1, mdy.2.2)
    | none => searchHearingAux (c :: acc) (some c) t

/-- `re.search(r'\b(Jan|...|Dec)\s+(\d{1,2})\s+(\d{4})\b', raw)`. -/
def searchHearing (s : String) : Option (String × String × String × String) :=
  searchHearingAux [] none s.data

/-- The `<committeehearing>` fallback branch of `get_next_action`. -/
def committeeHearingFallback (root : StatusDoc) : String × String :=
  match root.committeehearing with
  | some (some raw0) =>
    if raw0 ≠ "" then
      let raw := trimStr raw0
      match searchHearing raw with
      | some r => (r.2.1 ++ "/" ++ r.2.2.1 ++ "/" ++ r.2.2.2, trimStr r.1)
      | none => ("", "")
    else ("", "")
  | _ => ("", "")

/-- The `<nextaction>` branch of `get_next_action`: `some` exactly when the
element is present with a truthy `<statusdate>` text (the early return). -/
def nextActionTry (root : StatusDoc) : Option (String × String) :=
  match root.nextaction with
  | none => none
  | some na =>
    match na.statusdate with
    | some (some d) =>
      if d ≠ "" then
        some (trimStr d,
              match na.action with
              | some t => trimStr (t.getD "")
              | none => "")
      else none
    | _ => none

/-- `get_next_action`: prefer `<nextaction>`, else committee-hearing fallback. -/
def get_next_action (root : StatusDoc) : String × String :=
  match nextActionTry root with
  | some p => p
  | none => committeeHearingFallback root

/-- The fixed shell-bill marker phrase. -/
def shellMarker : String := "Replaces everything after the enacting clause"

/-- State of the `get_amendments` synopsis scan: the pending
`current_title`, the running `last_name`, and the sticky `is_shell` flag. -/
structure AmScanSt where
  currentTitle : Option String
  lastName : Option String
  isShell : Bool
  deriving DecidableEq, Repr

/-- One child of `<synopsis>` in the `get_amendments` loop.  A nonempty
stripped `<synopsistitle>` text sets the pending title; a `<SynopsisText>`
with a pending title consumes it, records it as the last amendment name,
and checks the shell-bill marker prefix on the stripped body. -/
def amStep (st : AmScanSt) (child : String × Option String) : AmScanSt :=
  if child.1 = "synopsistitle" then
    let t := trimStr (child.2.getD "")
    if t ≠ "" then { st with currentTitle := some t } else st
  else if child.1 = "SynopsisText" then
    match st.currentTitle with
    | some ct =>
      let text := trimStr (child.2.getD "")
      { currentTitle := none,
        lastName := some ct,
        isShell := st.isShell || startsWithStr text shellMarker }
    | none => st
  else st

/-- `_find_amendment_date` inner loop over `<actions>` children, carrying
the running `current_date`. -/
def findAmendmentDateAux : List (String × Option String) → Option String → String → Option String
  | [], _, _ => none
  | child :: rest, cur, name =>
    if child.1 = "statusdate" then
      findAmendmentDateAux rest (some (trimStr (child.2.getD ""))) name
    else if child.1 = "action" ∧ name ≠ "" then
      (if containsSub (child.2.getD "") (trimStr name) then cur
       else findAmendmentDateAux rest cur name)
    else findAmendmentDateAux rest cur name

/-- `_find_amendment_date`: date of the first `<action>` entry whose text
contains the amendment name. -/
def find_amendment_date (root : StatusDoc) (name : String) : Option String :=
  match root.actions with
  | none => none
  | some children => findAmendmentDateAux children none name

/-- Python `x or None` on an optional string (empty string becomes `None`). -/
def strOrNone : Option String → Option String
  | some v => if v = "" then none else some v
  | none => none

/-- `get_amendments`: (last amendment name, its date, shell-bill flag). -/
def get_amendments (root : StatusDoc) : Option String × Option String × Bool :=
  let st := match root.synopsis with
            | none => AmScanSt.mk none none false
            | some children => children.foldl amStep (AmScanSt.mk none none false)
  let lastDate := match st.lastName with
                  | some n => find_amendment_date root n
                  | none => none
  (strOrNone st.lastName, strOrNone lastDate, st.isShell)

/-- The `stageChangedAt` computation of `_ilga_fields_from_xml`:
the fetch timestamp when the stage changed (Python `!=` against the
previous stage value, which may be `None`), else
`prev_stage_changed_at or fetched_at`. -/
def computeSca (newStage : String) (prevStage prevSca : JVal) (fetchedAt : String) : JVal :=
  if JVal.s newStage ≠ prevStage then JVal.s fetchedAt
  else if truthy prevSca then prevSca else JVal.s fetchedAt

/-- Python `x or None` for a string flowing into a JSON value
(`next_action_date or None`). -/
def strValOrNull (v : String) : JVal :=
  if v = "" then JVal.null else JVal.s v

/-- An optional string as a JSON value (`None` ↦ `null`). -/
def optValOrNull : Option String → JVal
  | some v => JVal.s v
  | none => JVal.null

/-- The dict literal built by `_ilga_fields_from_xml` on a successfully
parsed document. -/
def buildFields (root : StatusDoc) (docType : String) (prevStage prevSca : JVal)
    (fetchedAt : String) : Rec :=
  let lastAction := (get_last_action_fields root).1
  let lastActionDate := (get_last_action_fields root).2
  let actionHistory := get_action_texts root
  let primarySponsor := get_primary_sponsor root
  let newStage := map_stage lastAction actionHistory docType
  let nextActionDate := (get_next_action root).1
  let nextActionType := (get_next_action root).2
  let am := get_amendments root
  [("stage", JVal.s newStage),
   ("primarySponsor", JVal.s primarySponsor),
   ("lastAction", JVal.s lastAction),
   ("lastActionDate", JVal.s lastActionDate),
   ("ilgaFetchedAt", JVal.s fetchedAt),
   ("stageChangedAt", computeSca newStage prevStage prevSca fetchedAt),
   ("nextActionDate", strValOrNull nextActionDate),
   ("nextActionType", strValOrNull nextActionType),
   ("lastAmendmentName", optValOrNull am.1),
   ("lastAmendmentDate", optValOrNull am.2.1),
   ("isShellBill", JVal.b am.2.2)]

/-- `_ilga_fields_from_xml`: parses the bill number (uncaught `ValueError`
propagates), then returns `none` on an XML parse error (the caught
`ET.ParseError`) or the computed fields dict.  `parsed` is the outcome of
`ET.fromstring` on the fetched bytes. -/
def ilga_fields_from_xml (parsed : Option StatusDoc) (billNumber : String)
    (prevStage prevSca : JVal) (fetchedAt : String) : Except String (Option Rec) :=
  match parse_bill_number billNumber with
  | Except.error e => Except.error e
  | Except.ok dn =>
    match parsed with
    | none => Except.ok none
    | some root => Except.ok (some (buildFields root dn.1 prevStage prevSca fetchedAt))

/-- The keys owned by the inference pipeline (the `_ilga_fields_from_xml`
output dict / the fallback dict in `process_bill`). -/
def inferredKeys : List String :=
  ["stage", "primarySponsor", "lastAction", "lastActionDate", "ilgaFetchedAt",
   "stageChangedAt", "nextActionDate", "nextActionType", "lastAmendmentName",
   "lastAmendmentDate", "isShellBill"]

/-- The fallback dict literal of `process_bill` (used verbatim on both the
fetch-failure and the parse-failure paths): each inferred field from the
previous record, with its per-key default. -/
def fallbackFields (prev : Rec) : Rec :=
  [("stage", dgetD prev "stage" (JVal.s "Unknown")),
   ("primarySponsor", dgetD prev "primarySponsor" (JVal.s "")),
   ("lastAction", dgetD prev "lastAction" (JVal.s "")),
   ("lastActionDate", dgetD prev "lastActionDate" (JVal.s "")),
   ("ilgaFetchedAt", dgetD prev "ilgaFetchedAt" (JVal.s "")),
   ("stageChangedAt", dgetD prev "stageChangedAt" (JVal.s "")),
   ("nextActionDate", dgetD prev "nextActionDate" JVal.null),
   ("nextActionType", dgetD prev "nextActionType" JVal.null),
   ("lastAmendmentName", dgetD prev "lastAmendmentName" JVal.null),
   ("lastAmendmentDate", dgetD prev "lastAmendmentDate" JVal.null),
   ("isShellBill", dgetD prev "isShellBill" (JVal.b false))]

/-- The external fetch-and-parse oracle: `none` = `fetch_xml` returned
`None`; `some none` = bytes fetched but `ET.fromstring` failed;
`some (some doc)` = parsed document. -/
abbrev FetchOracle : Type := String → Option (Option StatusDoc)

/-- `process_bill`: fetch the bill's XML and merge the computed (or
fallback) ILGA fields over the static bill record.  `now` is the
`datetime.now(...)` timestamp taken at the top of the call; `prevData` is
the `prev_data.get(bill_number, {})` lookup.  Uncaught exceptions
(`KeyError` on `billNumber`, `ValueError` from `parse_bill_number`) are
`Except.error`. -/
def process_bill (fetch : FetchOracle) (now : String) (bill : Rec)
    (prevData : String → Rec) : Except String Rec :=
  match dget bill "billNumber" with
  | some (JVal.s billNumber) =>
    (match get_xml_url billNumber with
     | Except.error e => Except.error e
     | Except.ok url =>
       let prev := prevData billNumber
       let fetchedAt := now
       let prevStage := (dget prev "stage").getD JVal.null
       let prevSca := (dget prev "stageChangedAt").getD JVal.null
       match fetch url with
       | none => Except.ok (dmerge bill (fallbackFields prev))
       | some parsed =>
         match ilga_fields_from_xml parsed billNumber prevStage prevSca fetchedAt with
         | Except.error e => Except.error e
         | Except.ok none => Except.ok (dmerge bill (fallbackFields prev))
         | Except.ok (some fields) => Except.ok (dmerge bill fields))
  | _ => Except.error "KeyError: billNumber"

/-- `process_user_bill`: refresh ILGA fields for a user-added bill; on fetch
or parse failure the input record is returned as-is, otherwise the ILGA
fields are overlaid on it (`{**bill, **fields}`). -/
def process_user_bill (fetch : FetchOracle) (fetchedAt : String) (bill : Rec) :
    Except String Rec :=
  match dget bill "billNumber" with
  | some (JVal.s billNumber) =>
    (match get_xml_url billNumber with
     | Except.error e => Except.error e
     | Except.ok url =>
       let prevStage := (dget bill "stage").getD JVal.null
       let prevSca := (dget bill "stageChangedAt").getD JVal.null
       match fetch url with
       | none => Except.ok bill
       | some parsed =>
         match ilga_fields_from_xml parsed billNumber prevStage prevSca fetchedAt with
         | Except.error e => Except.error e
         | Except.ok none => Except.ok bill
         | Except.ok (some fields) => Except.ok (dmerge bill fields))
  | _ => Except.error "KeyError: billNumber"

/-- The base-bill loop of `main`: `for bill in BILLS: results.append(
process_bill(bill, prev_data))`.  The loop body has no try/except, so an
exception raised by `process_bill` aborts the whole loop (modelled by
`Except.error` propagation). -/
def runBatch (fetch : FetchOracle) (now : String) (bills : List Rec)
    (prevData : String → Rec) : Except String (List Rec) :=
  match bills with
  | [] => Except.ok []
  | bill :: rest =>
    match process_bill fetch now bill prevData with
    | Except.error e => Except.error e
    | Except.ok r =>
      match runBatch fetch now rest prevData with
      | Except.error e => Except.error e
      | Except.ok rs => Except.ok (r :: rs)

/-- Bodies of all `<SynopsisText>` children of `<synopsis>` (stripped), the
"synopsis body texts" of the shell-bill claim. -/
def synopsisBodies (root : StatusDoc) : List String :=
  match root.synopsis with
  | none => []
  | some children =>
    children.filterMap fun kv =>
      if kv.1 = "SynopsisText" then some (trimStr (kv.2.getD "")) else none

/-- Field lookup on an `ilga_fields_from_xml` result, `none` unless the call
succeeded with a fields dict. -/
def fieldOf (e : Except String (Option Rec)) (k : String) : Option JVal :=
  match e with
  | Except.ok (some r) => dget r k
  | _ => none

/-- The per-key defaults of the `process_bill` fallback dict, as
(key, default) pairs. -/
def fallbackDefaults : List (String × JVal) :=
  [("stage", JVal.s "Unknown"),
   ("primarySponsor", JVal.s ""),
   ("lastAction", JVal.s ""),
   ("lastActionDate", JVal.s ""),
   ("ilgaFetchedAt", JVal.s ""),
   ("stageChangedAt", JVal.s ""),
   ("nextActionDate", JVal.null),
   ("nextActionType", JVal.null),
   ("lastAmendmentName", JVal.null),
   ("lastAmendmentDate", JVal.null),
   ("isShellBill", JVal.b false)]


/-- The status document with every element absent. -/
def emptyDoc : StatusDoc := StatusDoc.mk none none none none none none

/-- A static bill record with opaque editorial fields, used as a concrete input. -/
def wBill : Rec :=
  [("billNumber", JVal.s "HB3466"), ("title", JVal.s "AHSAP"),
   ("category", JVal.s "Property Taxes"), ("year", JVal.arr [2025, 2026])]

/-- A previously persisted record with a stage and fetch timestamp. -/
def wPrev : Rec :=
  [("stage", JVal.s "Passed House"), ("ilgaFetchedAt", JVal.s "2026-01-01T00:00:00Z")]

/-- A user-added bill record with fields not owned by the inference pipeline. -/
def wUserBill : Rec :=
  [("billNumber", JVal.s "SB1911"), ("title", JVal.s "Companion"),
   ("userAdded", JVal.b true), ("customTag", JVal.s "keep-me")]

/-- A bill whose identity code does not match the uppercase-prefix+number pattern. -/
def badBill : Rec := [("billNumber", JVal.s "hb123"), ("title", JVal.s "Malformed")]

/-- A bill with a well-formed identity code. -/
def goodBill : Rec := [("billNumber", JVal.s "HB3466")]

/-- A document whose synopsis pairs a title with a marker-prefixed body. -/
def wShellDoc : StatusDoc :=
  StatusDoc.mk none none none none none
    (some [("synopsistitle", some "House Amendment 1"),
           ("SynopsisText",
            some "Replaces everything after the enacting clause with the following: text")])

/-- A document whose synopsis holds a marker-prefixed body with no preceding
title: the scan skips it, so the shell flag stays false. -/
def unpairedBodyDoc : StatusDoc :=
  StatusDoc.mk none none none none none
    (some [("SynopsisText",
            some "Replaces everything after the enacting clause with the following: text")])

@[simp] theorem dget_nil (k : String) : dget [] k = none := rfl

@[simp] theorem dget_cons (kv : String × JVal) (l : Rec) (k : String) :
    dget (kv :: l) k = if kv.1 = k then some kv.2 else dget l k := rfl

theorem dmerge_cons (kv : String × JVal) (a b : Rec) :
    dmerge (kv :: a) b =
      if (dget b kv.1).isNone then kv :: dmerge a b else dmerge a b := by
  by_cases hp : (dget b kv.1).isNone
  · simp [dmerge, List.filter_cons, hp]
  · simp [dmerge, List.filter_cons, hp]

/-- Keys of the overlay win in `{**a, **b}`. -/
theorem dget_dmerge_right {a b : Rec} {k : String} {v : JVal} (h : dget b k = some v) :
    dget (dmerge a b) k = some v := by
  induction a with
  | nil => simpa [dmerge] using h
  | cons kv rest ih =>
    rw [dmerge_cons]
    by_cases hp : (dget b kv.1).isNone
    · have hk1 : kv.1 ≠ k := by
        intro he
        rw [he, h] at hp
        simp at hp
      simp [hp, hk1, ih]
    · simp [hp, ih]

/-- Keys absent from the overlay are untouched in `{**a, **b}`. -/
theorem dget_dmerge_left {a b : Rec} {k : String} (h : dget b k = none) :
    dget (dmerge a b) k = dget a k := by
  induction a with
  | nil => simp [dmerge, h]
  | cons kv rest ih =>
    rw [dmerge_cons]
    by_cases hp : (dget b kv.1).isNone
    · by_cases hk1 : kv.1 = k
      · simp [hp, hk1, h]
      · simp [hp, hk1, ih]
    · have hk1 : kv.1 ≠ k := by
        intro he
        exact hp (by rw [he, h]; rfl)
      simp [hp, hk1, ih]

theorem dget_eq_none_of_keys {l : Rec} {keys : List String} {k : String}
    (hl : ∀ kv ∈ l, kv.1 ∈ keys) (hk : k ∉ keys) : dget l k = none := by
  induction l with
  | nil => rfl
  | cons kv rest ih =>
    have h1 : kv.1 ≠ k := by
      intro he
      exact hk (he ▸ hl kv (List.mem_cons_self kv rest))
    simp [h1]
    exact ih (fun kv2 h2 => hl kv2 (List.mem_cons_of_mem kv h2))

theorem fallbackFields_keys (prev : Rec) :
    ∀ kv ∈ fallbackFields prev, kv.1 ∈ inferredKeys := by
  intro kv hkv
  simp only [fallbackFields, List.mem_cons, List.not_mem_nil, or_false] at hkv
  rcases hkv with rfl | rfl | rfl | rfl | rfl | rfl | rfl | rfl | rfl | rfl | rfl <;>
    simp [inferredKeys]

theorem buildFields_keys (root : StatusDoc) (docType : String) (prevStage prevSca : JVal)
    (fetchedAt : String) :
    ∀ kv ∈ buildFields root docType prevStage prevSca fetchedAt, kv.1 ∈ inferredKeys := by
  intro kv hkv
  simp only [buildFields, List.mem_cons, List.not_mem_nil, or_false] at hkv
  rcases hkv with rfl | rfl | rfl | rfl | rfl | rfl | rfl | rfl | rfl | rfl | rfl <;>
    simp [inferredKeys]

/-- On a parsed document with a well-formed bill number,
`_ilga_fields_from_xml` returns the computed fields dict. -/
theorem ilga_ok {root : StatusDoc} {bn : String} {dn : String × String}
    {ps sca : JVal} {fa : String} (hp : parse_bill_number bn = Except.ok dn) :
    ilga_fields_from_xml (some root) bn ps sca fa =
      Except.ok (some (buildFields root dn.1 ps sca fa)) := by
  simp [ilga_fields_from_xml, hp]

theorem dget_buildFields_stage (root : StatusDoc) (docType : String)
    (ps sca : JVal) (fa : String) :
    dget (buildFields root docType ps sca fa) "stage" =
      some (JVal.s (map_stage (get_last_action_fields root).1
        (get_action_texts root) docType)) := rfl

theorem dget_buildFields_sca (root : StatusDoc) (docType : String)
    (ps sca : JVal) (fa : String) :
    dget (buildFields root docType ps sca fa) "stageChangedAt" =
      some (computeSca (map_stage (get_last_action_fields root).1
        (get_action_texts root) docType) ps sca fa) := rfl

/-- `process_bill` on a fetch failure or an unparsable document returns the
static record overlaid with the fallback fields. -/
theorem process_bill_fail_eq {fetch : FetchOracle} {now : String} {bill : Rec}
    {prevData : String → Rec} {bn : String} {dn : String × String}
    (hbn : dget bill "billNumber" = some (JVal.s bn))
    (hp : parse_bill_number bn = Except.ok dn)
    (hf : fetch (ILGA_FTP_BASE ++ dn.1 ++ zfill4 dn.2 ++ ".xml") = none ∨
          fetch (ILGA_FTP_BASE ++ dn.1 ++ zfill4 dn.2 ++ ".xml") = some none) :
    process_bill fetch now bill prevData =
      Except.ok (dmerge bill (fallbackFields (prevData bn))) := by
  rcases hf with hf | hf
  · simp [process_bill, hbn, get_xml_url, hp, hf]
  · simp [process_bill, hbn, get_xml_url, hp, hf, ilga_fields_from_xml]

/-- `process_bill` on a successfully parsed document merges the computed
ILGA fields over the static record. -/
theorem process_bill_ok_eq {fetch : FetchOracle} {now : String} {bill : Rec}
    {prevData : String → Rec} {bn : String} {dn : String × String} {root : StatusDoc}
    (hbn : dget bill "billNumber" = some (JVal.s bn))
    (hp : parse_bill_number bn = Except.ok dn)
    (hf : fetch (ILGA_FTP_BASE ++ dn.1 ++ zfill4 dn.2 ++ ".xml") = some (some root)) :
    process_bill fetch now bill prevData =
      Except.ok (dmerge bill (buildFields root dn.1
        ((dget (prevData bn) "stage").getD JVal.null)
        ((dget (prevData bn) "stageChangedAt").getD JVal.null) now)) := by
  simp [process_bill, hbn, get_xml_url, hp, hf, ilga_fields_from_xml]

/-- `process_user_bill` on a fetch failure or an unparsable document returns
the input record itself. -/
theorem process_user_bill_fail_eq {fetch : FetchOracle} {fa : String} {bill : Rec}
    {bn : String} {dn : String × String}
    (hbn : dget bill "billNumber" = some (JVal.s bn))
    (hp : parse_bill_number bn = Except.ok dn)
    (hf : fetch (ILGA_FTP_BASE ++ dn.1 ++ zfill4 dn.2 ++ ".xml") = none ∨
          fetch (ILGA_FTP_BASE ++ dn.1 ++ zfill4 dn.2 ++ ".xml") = some none) :
    process_user_bill fetch fa bill = Except.ok bill := by
  rcases hf with hf | hf
  · simp [process_user_bill, hbn, get_xml_url, hp, hf]
  · simp [process_user_bill, hbn, get_xml_url, hp, hf, ilga_fields_from_xml]

/-- `process_user_bill` on a successfully parsed document merges the
computed ILGA fields over the input record. -/
theorem process_user_bill_ok_eq {fetch : FetchOracle} {fa : String} {bill : Rec}
    {bn : String} {dn : String × String} {root : StatusDoc}
    (hbn : dget bill "billNumber" = some (JVal.s bn))
    (hp : parse_bill_number bn = Except.ok dn)
    (hf : fetch (ILGA_FTP_BASE ++ dn.1 ++ zfill4 dn.2 ++ ".xml") = some (some root)) :
    process_user_bill fetch fa bill =
      Except.ok (dmerge bill (buildFields root dn.1
        ((dget bill "stage").getD JVal.null)
        ((dget bill "stageChangedAt").getD JVal.null) fa)) := by
  simp [process_user_bill, hbn, get_xml_url, hp, hf, ilga_fields_from_xml]

/-- With a well-formed bill number, `process_bill` cannot raise: every fetch
outcome lands in a `pure` branch. -/
theorem process_bill_never_fails (fetch : FetchOracle) (now : String) (bill : Rec)
    (prevData : String → Rec) {bn : String} {dn : String × String}
    (hbn : dget bill "billNumber" = some (JVal.s bn))
    (hp : parse_bill_number bn = Except.ok dn) :
    ∃ r, process_bill fetch now bill prevData = Except.ok r := by
  cases hf : fetch (ILGA_FTP_BASE ++ dn.1 ++ zfill4 dn.2 ++ ".xml") with
  | none => exact ⟨_, process_bill_fail_eq hbn hp (Or.inl hf)⟩
  | some parsed =>
    cases parsed with
    | none => exact ⟨_, process_bill_fail_eq hbn hp (Or.inr hf)⟩
    | some root => exact ⟨_, process_bill_ok_eq hbn hp hf⟩

theorem dget_fallbackFields_of_mem (prev : Rec) {k : String} {d : JVal}
    (h : (k, d) ∈ fallbackDefaults) :
    dget (fallbackFields prev) k = some (dgetD prev k d) := by
  fin_cases h <;> rfl

/-- One scan step never clears the sticky shell flag. -/
theorem amStep_shell_mono {st : AmScanSt} {child : String × Option String}
    (h : st.isShell = true) : (amStep st child).isShell = true := by
  by_cases h1 : child.1 = "synopsistitle"
  · simp only [amStep, h1, if_true]
    split <;> simp [h]
  · by_cases h2 : child.1 = "SynopsisText"
    · simp only [amStep, h1, h2, if_false, if_true]
      cases hc : st.currentTitle <;> simp [h]
    · simp [amStep, h1, h2, h]

/-- The scan never clears the sticky shell flag. -/
theorem amFold_shell_mono (children : List (String × Option String)) (st : AmScanSt)
    (h : st.isShell = true) : (children.foldl amStep st).isShell = true := by
  induction children generalizing st with
  | nil => exact h
  | cons c rest ih => exact ih _ (amStep_shell_mono h)

/-- If the scan ends with the shell flag set, either it started set or some
`SynopsisText` child's stripped text starts with the marker. -/
theorem amFold_shell_sound (children : List (String × Option String)) (st : AmScanSt)
    (h : (children.foldl amStep st).isShell = true) :
    st.isShell = true ∨ ∃ kv ∈ children, kv.1 = "SynopsisText" ∧
      startsWithStr (trimStr (kv.2.getD "")) shellMarker = true := by
  induction children generalizing st with
  | nil => exact Or.inl h
  | cons c rest ih =>
    rcases ih (amStep st c) h with h1 | h2
    · by_cases hc1 : c.1 = "synopsistitle"
      · left
        simp only [amStep, hc1, if_true] at h1
        split at h1 <;> simpa using h1
      · by_cases hc2 : c.1 = "SynopsisText"
        · simp only [amStep, hc1, hc2, if_false, if_true] at h1
          cases hct : st.currentTitle with
          | none => rw [hct] at h1; exact Or.inl h1
          | some ct =>
            rw [hct] at h1
            simp at h1
            rcases h1 with h1 | h1
            · exact Or.inl h1
            · exact Or.inr ⟨c, List.mem_cons_self c rest, hc2, h1⟩
        · simp only [amStep, hc1, hc2, if_false] at h1
          exact Or.inl h1
    · rcases h2 with ⟨kv, hm, hrest⟩
      exact Or.inr ⟨kv, List.mem_cons_of_mem c hm, hrest⟩

/-- A nonempty `synopsistitle` immediately followed by a marker-prefixed
`SynopsisText` sets the shell flag, wherever the pair occurs. -/
theorem amFold_adjacent (pre post : List (String × Option String)) (t bo : String)
    (st : AmScanSt) (ht : trimStr t ≠ "")
    (hb : startsWithStr (trimStr bo) shellMarker = true) :
    ((pre ++ ("synopsistitle", some t) :: ("SynopsisText", some bo) :: post).foldl
      amStep st).isShell = true := by
  rw [List.foldl_append]
  simp only [List.foldl_cons]
  have h1 : amStep (pre.foldl amStep st) ("synopsistitle", some t) =
      { pre.foldl amStep st with currentTitle := some (trimStr t) } := by
    simp [amStep, ht]
  rw [h1]
  apply amFold_shell_mono
  simp [amStep, hb]

/-- C5: the stage classifier is a total function: for every last-action
text (including the empty string), every action-history list and every
item-type prefix it returns exactly one stage label from the fixed
enumeration, never failing and never returning an absent value (it is a
Lean function into `String` whose result is always a member of
`stageEnum`). -/
theorem map_stage_total (la : String) (hist : List String) (dt : String) :
    map_stage la hist dt ∈ stageEnum := by
  simp only [map_stage]
  split_ifs <;> simp [stageEnum]

/-- C6: a last-action text containing both "approved by governor" and
"vetoed" (lower-cased) classifies as the Signed stage ("Signed into Law"),
for any action history and any prefix: rule 1 is evaluated before rule 6's
failure-phrase check. -/
theorem map_stage_signed_precedence (la : String) (hist : List String) (dt : String)
    (h1 : containsSub (lowerStr la) "approved by governor" = true)
    (h2 : containsSub (lowerStr la) "vetoed" = true) :
    map_stage la hist dt = "Signed into Law" := by
  simp only [map_stage]
  simp [h1]

/-- C6 witness: the spec's example last action. -/
theorem map_stage_signed_precedence_witness :
    map_stage "House Bill 1234 was Approved by Governor, Vetoed"
      ["arrive in house"] "SB" = "Signed into Law" :=
  map_stage_signed_precedence _ _ _ (by decide) (by decide)

/-- C7: when the last-action text contains none of the recognized phrases
and the joined action history (already lower-cased by `get_action_texts`)
contains "arrive in senate", the classifier returns "In Senate Committee"
even for the prefix "HB": the prefix tie-break is not consulted. -/
theorem map_stage_history_beats_tiebreak (la : String) (hist : List String)
    (h1 : containsSub (lowerStr la) "approved by governor" = false)
    (h2 : containsSub (lowerStr la) "public act" = false)
    (h3 : containsSub (lowerStr la) "sent to the governor" = false)
    (h4 : containsSub (lowerStr la) "to the governor" = false)
    (h5 : containsSub (lowerStr la) "passed both" = false)
    (h6 : containsSub (lowerStr la) "enrolled" = false)
    (h7 : containsSub (lowerStr la) "passed senate" = false)
    (h8 : containsSub (lowerStr la) "passed house" = false)
    (h9 : containsSub (lowerStr la) "vetoed" = false)
    (h10 : containsSub (lowerStr la) "failed" = false)
    (h11 : containsSub (lowerStr la) "did not pass" = false)
    (h12 : containsSub (lowerStr la) "tabled" = false)
    (h13 : containsSub (lowerStr la) "withdrawn" = false)
    (hh : containsSub (String.intercalate " " hist) "arrive in senate" = true) :
    map_stage la hist "HB" = "In Senate Committee" := by
  simp only [map_stage]
  simp [h1, h2, h3, h4, h5, h6, h7, h8, h9, h10, h11, h12, h13, hh]

/-- C7 witness: empty last action, history with a Senate-arrival entry,
House-type prefix. -/
theorem map_stage_history_beats_tiebreak_witness :
    map_stage "" ["arrive in senate"] "HB" = "In Senate Committee" := by
  apply map_stage_history_beats_tiebreak <;> decide

/-- C1: on a successful fetch and parse, if the newly classified stage
differs from the previous record's stage value (which is the Python value
`None` when no previous record exists), the output `stageChangedAt` is
exactly the current run's fetch timestamp. -/
theorem stage_changed_at_on_change
    (root : StatusDoc) (bn : String) (dn : String × String) (prevStage prevSca : JVal)
    (fetchedAt : String)
    (hp : parse_bill_number bn = Except.ok dn)
    (hne : prevStage ≠ JVal.s (map_stage (get_last_action_fields root).1
      (get_action_texts root) dn.1)) :
    fieldOf (ilga_fields_from_xml (some root) bn prevStage prevSca fetchedAt)
      "stageChangedAt" = some (JVal.s fetchedAt) := by
  rw [ilga_ok hp]
  show dget (buildFields root dn.1 prevStage prevSca fetchedAt) "stageChangedAt" = _
  rw [dget_buildFields_sca]
  unfold computeSca
  rw [if_pos (Ne.symm hne)]

/-- C1 witness: a fresh bill (no previous record, previous stage `None`). -/
theorem stage_changed_at_on_change_witness :
    fieldOf (ilga_fields_from_xml (some emptyDoc) "HB3466" JVal.null JVal.null
      "2026-02-03T00:00:00Z") "stageChangedAt" = some (JVal.s "2026-02-03T00:00:00Z") :=
  stage_changed_at_on_change emptyDoc "HB3466" ("HB", "3466") JVal.null JVal.null
    "2026-02-03T00:00:00Z" rfl (by decide)

/-- C2 counterexample: previous stage equal to the newly classified stage
("In House Committee" for an empty document of a House bill) and previous
`stageChangedAt` equal to the empty string: the output `stageChangedAt` is
the fetch timestamp, not the previous empty-string value, because Python's
`prev or fetched_at` treats `""` as falsy. -/
theorem stage_changed_at_exact_carry_cex :
    fieldOf (ilga_fields_from_xml (some emptyDoc) "HB3466"
        (JVal.s "In House Committee") (JVal.s "") "2026-02-03T00:00:00Z") "stage" =
      some (JVal.s "In House Committee") ∧
    fieldOf (ilga_fields_from_xml (some emptyDoc) "HB3466"
        (JVal.s "In House Committee") (JVal.s "") "2026-02-03T00:00:00Z")
      "stageChangedAt" = some (JVal.s "2026-02-03T00:00:00Z") ∧
    (JVal.s "2026-02-03T00:00:00Z" : JVal) ≠ JVal.s "" :=
  ⟨rfl, rfl, by decide⟩

/-- C2 (amended): on a successful fetch and parse with the previous stage
equal to the newly classified stage, the output `stageChangedAt` carries
the previous record's `stageChangedAt` exactly when that value is truthy
(non-null, non-empty); when it is absent, null or the empty string, the
output `stageChangedAt` is the current fetch timestamp instead. -/
theorem stage_changed_at_on_no_change
    (root : StatusDoc) (bn : String) (dn : String × String) (prevSca : JVal)
    (fetchedAt : String)
    (hp : parse_bill_number bn = Except.ok dn) :
    fieldOf (ilga_fields_from_xml (some root) bn
        (JVal.s (map_stage (get_last_action_fields root).1 (get_action_texts root) dn.1))
        prevSca fetchedAt) "stageChangedAt" =
      some (if truthy prevSca then prevSca else JVal.s fetchedAt) := by
  rw [ilga_ok hp]
  show dget (buildFields root dn.1 _ prevSca fetchedAt) "stageChangedAt" = _
  rw [dget_buildFields_sca]
  unfold computeSca
  simp

/-- C2 witness: a truthy previous `stageChangedAt` is carried unchanged. -/
theorem stage_changed_at_on_no_change_witness :
    fieldOf (ilga_fields_from_xml (some emptyDoc) "HB3466"
        (JVal.s "In House Committee") (JVal.s "2026-01-15T00:00:00Z")
        "2026-02-03T00:00:00Z") "stageChangedAt" =
      some (JVal.s "2026-01-15T00:00:00Z") := by
  have h := stage_changed_at_on_no_change emptyDoc "HB3466" ("HB", "3466")
    (JVal.s "2026-01-15T00:00:00Z") "2026-02-03T00:00:00Z" rfl
  exact h

/-- C4: on a total fetch failure or an unparsable document, the output
record carries every inferred field from the previous record (with its
per-key default when the previous record lacks it: in particular a previous
stage "Passed House" stays exactly "Passed House" and `ilgaFetchedAt` is the
previous value, not the current run's timestamp), while every key outside
the inferred-field set passes through from the static bill record
unmodified. -/
theorem process_bill_failure_preserves
    (fetch : FetchOracle) (now : String) (bill : Rec) (prevData : String → Rec)
    (bn : String) (dn : String × String)
    (hbn : dget bill "billNumber" = some (JVal.s bn))
    (hp : parse_bill_number bn = Except.ok dn)
    (hf : fetch (ILGA_FTP_BASE ++ dn.1 ++ zfill4 dn.2 ++ ".xml") = none ∨
          fetch (ILGA_FTP_BASE ++ dn.1 ++ zfill4 dn.2 ++ ".xml") = some none) :
    ∀ r, process_bill fetch now bill prevData = Except.ok r →
      (∀ k d, (k, d) ∈ fallbackDefaults → dget r k = some (dgetD (prevData bn) k d)) ∧
      (∀ k, k ∉ inferredKeys → dget r k = dget bill k) := by
  intro r hr
  rw [process_bill_fail_eq hbn hp hf] at hr
  injection hr with h
  subst h
  constructor
  · intro k d hkd
    exact dget_dmerge_right (dget_fallbackFields_of_mem (prevData bn) hkd)
  · intro k hk
    exact dget_dmerge_left (dget_eq_none_of_keys (fallbackFields_keys _) hk)

/-- C4 witness: fetch failure with a previous stage "Passed House": the
stage and previous fetch timestamp are carried, the opaque title passes
through. -/
theorem process_bill_failure_preserves_witness :
    dget (dmerge wBill (fallbackFields wPrev)) "stage" = some (JVal.s "Passed House") ∧
    dget (dmerge wBill (fallbackFields wPrev)) "ilgaFetchedAt" =
      some (JVal.s "2026-01-01T00:00:00Z") ∧
    dget (dmerge wBill (fallbackFields wPrev)) "title" = some (JVal.s "AHSAP") := by
  have h := process_bill_failure_preserves (fun _ => none) "2026-02-03T00:00:00Z" wBill
    (fun _ => wPrev) "HB3466" ("HB", "3466") rfl rfl (Or.inl rfl)
    (dmerge wBill (fallbackFields wPrev)) rfl
  exact ⟨h.1 "stage" (JVal.s "Unknown") (by decide),
    h.1 "ilgaFetchedAt" (JVal.s "") (by decide),
    h.2 "title" (by decide)⟩

/-- C10: on a fetch failure (or parse failure) every inferred key the
previous record lacks takes its fixed default without raising: stage
"Unknown", empty strings for the four string fields and `stageChangedAt`,
null for the next-action and amendment fields, false for `isShellBill`. -/
theorem process_bill_failure_defaults
    (fetch : FetchOracle) (now : String) (bill : Rec) (prevData : String → Rec)
    (bn : String) (dn : String × String)
    (hbn : dget bill "billNumber" = some (JVal.s bn))
    (hp : parse_bill_number bn = Except.ok dn)
    (hf : fetch (ILGA_FTP_BASE ++ dn.1 ++ zfill4 dn.2 ++ ".xml") = none ∨
          fetch (ILGA_FTP_BASE ++ dn.1 ++ zfill4 dn.2 ++ ".xml") = some none) :
    ∃ r, process_bill fetch now bill prevData = Except.ok r ∧
      ∀ k d, (k, d) ∈ fallbackDefaults → dget (prevData bn) k = none →
        dget r k = some d := by
  refine ⟨_, process_bill_fail_eq hbn hp hf, ?_⟩
  intro k d hkd hnone
  have h1 := dget_fallbackFields_of_mem (prevData bn) hkd
  simp only [dgetD, hnone, Option.getD_none] at h1
  exact dget_dmerge_right h1

/-- C10 witness: no previous record at all; the defaults appear. -/
theorem process_bill_failure_defaults_witness :
    ∃ r, process_bill (fun _ => none) "2026-02-03T00:00:00Z" wBill (fun _ => []) =
        Except.ok r ∧
      dget r "stage" = some (JVal.s "Unknown") ∧
      dget r "stageChangedAt" = some (JVal.s "") ∧
      dget r "nextActionDate" = some JVal.null ∧
      dget r "isShellBill" = some (JVal.b false) := by
  obtain ⟨r, hr, hdef⟩ := process_bill_failure_defaults (fun _ => none)
    "2026-02-03T00:00:00Z" wBill (fun _ => []) "HB3466" ("HB", "3466") rfl rfl (Or.inl rfl)
  exact ⟨r, hr, hdef "stage" (JVal.s "Unknown") (by decide) rfl,
    hdef "stageChangedAt" (JVal.s "") (by decide) rfl,
    hdef "nextActionDate" JVal.null (by decide) rfl,
    hdef "isShellBill" (JVal.b false) (by decide) rfl⟩

/-- C8: reconciling a user-added item leaves every key outside the
inferred-field set identical to the input record (shallow merge, inferred
fields win) on success, and returns the input record entirely unchanged on
fetch or parse failure. -/
theorem user_bill_frame_preserved
    (fetch : FetchOracle) (fa : String) (bill : Rec) (bn : String) (dn : String × String)
    (hbn : dget bill "billNumber" = some (JVal.s bn))
    (hp : parse_bill_number bn = Except.ok dn) :
    ((fetch (ILGA_FTP_BASE ++ dn.1 ++ zfill4 dn.2 ++ ".xml") = none ∨
      fetch (ILGA_FTP_BASE ++ dn.1 ++ zfill4 dn.2 ++ ".xml") = some none) →
        process_user_bill fetch fa bill = Except.ok bill) ∧
    (∀ (root : StatusDoc) (r : Rec),
        fetch (ILGA_FTP_BASE ++ dn.1 ++ zfill4 dn.2 ++ ".xml") = some (some root) →
        process_user_bill fetch fa bill = Except.ok r →
        ∀ k, k ∉ inferredKeys → dget r k = dget bill k) := by
  constructor
  · intro hf
    exact process_user_bill_fail_eq hbn hp hf
  · intro root r hf hr
    rw [process_user_bill_ok_eq hbn hp hf] at hr
    injection hr with h
    subst h
    intro k hk
    exact dget_dmerge_left (dget_eq_none_of_keys (buildFields_keys _ _ _ _ _) hk)

/-- C8 witness: a fetch failure returns the user bill unchanged. -/
theorem user_bill_frame_preserved_witness :
    process_user_bill (fun _ => none) "2026-02-03T00:00:00Z" wUserBill =
      Except.ok wUserBill :=
  (user_bill_frame_preserved (fun _ => none) "2026-02-03T00:00:00Z" wUserBill "SB1911"
    ("SB", "1911") rfl rfl).1 (Or.inl rfl)

/-- C3 counterexample: a batch holding a malformed identity ("hb123") and a
well-formed bill aborts the whole run with the uncaught `ValueError` (no
output list at all), even though the well-formed bill alone would have been
processed; so a MalformedIdentity error is not contained to its item. -/
theorem malformed_identity_aborts_run_cex :
    runBatch (fun _ => none) "2026-02-03T00:00:00Z" [badBill, goodBill] (fun _ => []) =
      Except.error "Cannot parse bill number: hb123" ∧
    (∃ rs, runBatch (fun _ => none) "2026-02-03T00:00:00Z" [goodBill] (fun _ => []) =
      Except.ok rs) :=
  ⟨rfl, ⟨_, rfl⟩⟩

/-- C3 (amended): fetch failures and parse failures are caught at the item
boundary — a batch whose bill numbers all match the uppercase-prefix+number
pattern always completes with one output per item, whatever the fetch
oracle does; but a MalformedIdentity error is not caught anywhere and
aborts the whole run (see the counterexample). -/
theorem batch_continues_per_item
    (fetch : FetchOracle) (now : String) (bills : List Rec) (prevData : String → Rec)
    (h : ∀ b ∈ bills, ∃ bn dn, dget b "billNumber" = some (JVal.s bn) ∧
        parse_bill_number bn = Except.ok dn) :
    ∃ rs, runBatch fetch now bills prevData = Except.ok rs ∧ rs.length = bills.length := by
  induction bills with
  | nil => exact ⟨[], rfl, rfl⟩
  | cons b rest ih =>
    obtain ⟨bn, dn, hbn, hp⟩ := h b (List.mem_cons_self b rest)
    obtain ⟨r, hr⟩ := process_bill_never_fails fetch now b prevData hbn hp
    obtain ⟨rs, hrs, hlen⟩ := ih (fun b2 h2 => h b2 (List.mem_cons_of_mem b h2))
    refine ⟨r :: rs, ?_, by simp [hlen]⟩
    simp [runBatch, hr, hrs]

/-- C3 witness: a two-bill batch with well-formed numbers completes even
though every fetch fails. -/
theorem batch_continues_per_item_witness :
    ∃ rs, runBatch (fun _ => none) "2026-02-03T00:00:00Z" [goodBill, wBill]
        (fun _ => []) = Except.ok rs ∧ rs.length = 2 := by
  have h := batch_continues_per_item (fun _ => none) "2026-02-03T00:00:00Z"
    [goodBill, wBill] (fun _ => [])
    (by
      intro b hb
      simp only [List.mem_cons, List.not_mem_nil, or_false] at hb
      rcases hb with rfl | rfl
      · exact ⟨"HB3466", ("HB", "3466"), rfl, rfl⟩
      · exact ⟨"HB3466", ("HB", "3466"), rfl, rfl⟩)
  simpa using h

/-- C9 counterexample: a synopsis body that begins with the marker phrase
but has no preceding nonempty title leaves the shell flag false, so "flag
true iff some synopsis body begins with the marker" fails in the
if direction. -/
theorem shell_flag_iff_cex :
    (∃ b ∈ synopsisBodies unpairedBodyDoc, startsWithStr b shellMarker = true) ∧
    (get_amendments unpairedBodyDoc).2.2 = false := by
  refine ⟨⟨"Replaces everything after the enacting clause with the following: text",
    ?_, ?_⟩, rfl⟩
  · decide
  · decide

/-- C9 (amended): the shell flag is true only if some synopsis body's
stripped text begins with the exact case-sensitive marker prefix (so a body
containing the phrase only mid-sentence never sets it); and it is set
whenever a nonempty title is immediately followed by such a body.  A
marker-prefixed body with no pending title does not set the flag (see the
counterexample). -/
theorem shell_flag_characterization :
    (∀ root : StatusDoc, (get_amendments root).2.2 = true →
        ∃ b ∈ synopsisBodies root, startsWithStr b shellMarker = true) ∧
    (∀ (root : StatusDoc) (children pre post : List (String × Option String))
        (t bo : String),
        root.synopsis = some children →
        children = pre ++ ("synopsistitle", some t) :: ("SynopsisText", some bo) :: post →
        trimStr t ≠ "" → startsWithStr (trimStr bo) shellMarker = true →
        (get_amendments root).2.2 = true) := by
  constructor
  · intro root h
    cases hs : root.synopsis with
    | none => simp [get_amendments, hs] at h
    | some children =>
      have h2 : (children.foldl amStep (AmScanSt.mk none none false)).isShell = true := by
        simpa [get_amendments, hs] using h
      rcases amFold_shell_sound children _ h2 with h3 | ⟨kv, hm, htag, hstart⟩
      · simp at h3
      · refine ⟨trimStr (kv.2.getD ""), ?_, hstart⟩
        simp only [synopsisBodies, hs, List.mem_filterMap]
        exact ⟨kv, hm, by simp [htag]⟩
  · intro root children pre post t bo hs hc ht hb
    simp only [get_amendments, hs]
    rw [hc]
    exact amFold_adjacent pre post t bo _ ht hb

/-- C9 witness: a nonempty title immediately followed by a marker-prefixed
body sets the shell flag. -/
theorem shell_flag_characterization_witness :
    (get_amendments wShellDoc).2.2 = true :=
  shell_flag_characterization.2 wShellDoc
    [("synopsistitle", some "House Amendment 1"),
     ("SynopsisText",
      some "Replaces everything after the enacting clause with the following: text")]
    [] [] "House Amendment 1"
    "Replaces everything after the enacting clause with the following: text"
    rfl rfl (by decide) (by decide)
